import Mathlib

/-!
Verification of the lgtv-rs session/protocol layer.

This file shallowly embeds the parts of the repository that the specified
properties are about:

* `src/remote.rs` — `LgtvRemote::new`, the reader-task frame routing of
  `LgtvRemote::connect`, `send_message`, `send_command`,
  `LgtvRemote::on` and `parse_mac_address`;
* `src/auth.rs` — the pairing wait loop of `LgtvAuth::connect`;
* `src/scan.rs` — the collection loop and address de-duplication of
  `scan_for_tvs`;
* `src/error.rs` — the `LgtvError` taxonomy.

Stateful async code is embedded as explicit state passing: the session
struct carries the fields of `LgtvRemote` plus the observable state of the
two background tasks (whether the writer task is still draining its queue,
and the queue contents).  Machine integers (`u32 command_count`) are `Nat`
with an explicit `% 2^32` at the increment, matching release-profile
wrapping arithmetic.  Fallible code returns `Except`/`Option`.
-/

/-- The error enum of `src/error.rs`.  Variants whose Rust payload is a
foreign error type (`tungstenite::Error`, `std::io::Error`, ...) carry the
rendered message as a `String` here; the claims only ever inspect the
variant and the message of the `String`-payload variants. -/
inductive LgtvError where
  | WebSocketError (msg : String)
  | IoError (msg : String)
  | JsonError (msg : String)
  | HttpError (msg : String)
  | AddrParseError (msg : String)
  | MacAddressError (msg : String)
  | ConfigError (msg : String)
  | AuthError (msg : String)
  | ConnectionError (msg : String)
  | TvNotFound (msg : String)
  | CommandError (msg : String)
deriving DecidableEq, Repr

/-- A `serde_json::Value`.  Numbers are normalised to `Int`: no routed
decision in the embedded code ever inspects a numeric payload, only
object fields and strings. -/
inductive JValue where
  | null
  | bool (b : Bool)
  | num (n : Int)
  | str (s : String)
  | arr (elems : List JValue)
  | obj (fields : List (String × JValue))

/-- `Value::get(key)` on an object: the first binding of `key`
(serde_json object keys are unique, so first-match is exact). -/
def jsonGet (v : JValue) (key : String) : Option JValue :=
  match v with
  | .obj fields => go fields
  | _ => none
where go : List (String × JValue) → Option JValue
  | [] => none
  | (k, x) :: rest => if k = key then some x else go rest

/-- `Value::as_str()`. -/
def jAsStr (v : JValue) : Option String :=
  match v with
  | .str s => some s
  | _ => none

/-- `json.get(key).and_then(|v| v.as_str())` — remote.rs line 106. -/
def jsonStrField (v : JValue) (key : String) : Option String :=
  (jsonGet v key).bind jAsStr

/-! ### Response Router (reader task of `LgtvRemote::connect`, remote.rs 99-128)

The correlation map `response_channels : HashMap<String, mpsc::Sender<Value>>`
is embedded as an association list `List (String × Bool)`; the `Bool` is the
observable state of the stored one-slot sender: `true` while the caller still
holds the receiving end (so `tx.send` succeeds, possibly after waiting),
`false` once the caller dropped it (so `tx.send(..).await.is_err()`). -/

/-- Association-list lookup mirroring `HashMap::get`. -/
def chLookup : List (String × Bool) → String → Option Bool
  | [], _ => none
  | (k, v) :: rest, id => if k = id then some v else chLookup rest id

/-- Association-list removal mirroring `HashMap::remove` (keys are unique
in the map, so removing the first binding removes the binding). -/
def chRemove : List (String × Bool) → String → List (String × Bool)
  | [], _ => []
  | (k, v) :: rest, id => if k = id then rest else (k, v) :: chRemove rest id

/-- `HashMap::insert`: the new binding replaces any existing binding. -/
def chInsert (m : List (String × Bool)) (id : String) (live : Bool) :
    List (String × Bool) :=
  (id, live) :: chRemove m id

/-- Where one inbound text frame ends up. -/
inductive Delivery where
  | toSlot (id : String) (v : JValue)   -- sent into the channel registered under `id`
  | toUnsolicited (v : JValue)          -- sent to `response_tx` (handshake sink)
  | dropped                             -- not delivered anywhere

/-- Routing of one successfully parsed inbound frame, remote.rs 106-117:

* a string field `id` that is in the map: `tx.send(json)`; the entry is
  removed only when that send fails (receiver dropped);
* a string `id` not in the map, or no string `id`: the frame goes to the
  unsolicited `response_tx` sink (its send result is discarded).

Returns the delivery outcome and the updated correlation map. -/
def routeParsed (channels : List (String × Bool)) (v : JValue) :
    Delivery × List (String × Bool) :=
  match jsonStrField v "id" with
  | some id =>
    match chLookup channels id with
    | some live =>
      if live then (.toSlot id v, channels)
      else (.dropped, chRemove channels id)
    | none => (.toUnsolicited v, channels)
  | none => (.toUnsolicited v, channels)

/-- One `Message::Text` frame, remote.rs 102-118: `serde_json::from_str`
failure (`parsed = none`) drops the frame; otherwise route it. -/
def onTextFrame (channels : List (String × Bool)) (parsed : Option JValue) :
    Delivery × List (String × Bool) :=
  match parsed with
  | none => (.dropped, channels)
  | some v => routeParsed channels v

/-! ### C1 / C2 — correlation routing -/

/-- C1: an inbound text frame that parses and carries a string field `id`
registered with a live receiver is delivered into exactly that entry; a
frame whose id matches no registered entry, or that has no string id, is
never delivered into any caller slot and goes to the unsolicited
(handshake) sink; and conversely any slot delivery carries the very frame
whose id field names that slot, so a send_command caller only ever
receives frames bearing its own correlation id. -/
theorem router_routes_by_exact_id (channels : List (String × Bool)) (v : JValue) :
    (∀ id, jsonStrField v "id" = some id → chLookup channels id = some true →
      routeParsed channels v = (.toSlot id v, channels))
  ∧ (∀ id, jsonStrField v "id" = some id → chLookup channels id = none →
      (routeParsed channels v).1 = .toUnsolicited v)
  ∧ (jsonStrField v "id" = none → (routeParsed channels v).1 = .toUnsolicited v)
  ∧ (∀ id w, (routeParsed channels v).1 = .toSlot id w →
      w = v ∧ jsonStrField v "id" = some id ∧ chLookup channels id = some true) := by
  refine ⟨?_, ?_, ?_, ?_⟩
  · intro id hid hlook
    simp [routeParsed, hid, hlook]
  · intro id hid hlook
    simp [routeParsed, hid, hlook]
  · intro hid
    simp [routeParsed, hid]
  · intro id w h
    cases hid : jsonStrField v "id" with
    | none => simp [routeParsed, hid] at h
    | some id' =>
      cases hlook : chLookup channels id' with
      | none => simp [routeParsed, hid, hlook] at h
      | some live =>
        cases live with
        | false => simp [routeParsed, hid, hlook] at h
        | true =>
          simp [routeParsed, hid, hlook] at h
          obtain ⟨h1, h2⟩ := h
          subst h1
          subst h2
          exact ⟨rfl, rfl, hlook⟩

/-- Witness for C1 at concrete inputs: a mapped id is delivered to its own
slot, an unmapped id and a missing id go to the unsolicited sink. -/
theorem router_routes_by_exact_id_witness :
    routeParsed [("1", true)] (.obj [("id", .str "1")])
      = (.toSlot "1" (.obj [("id", .str "1")]), [("1", true)])
  ∧ (routeParsed [("1", true)] (.obj [("id", .str "9")])).1
      = .toUnsolicited (.obj [("id", .str "9")])
  ∧ (routeParsed [("1", true)] (.obj [("x", .str "1")])).1
      = .toUnsolicited (.obj [("x", .str "1")]) :=
  ⟨(router_routes_by_exact_id [("1", true)] (.obj [("id", .str "1")])).1 "1" rfl rfl,
   (router_routes_by_exact_id [("1", true)] (.obj [("id", .str "9")])).2.1 "9" rfl rfl,
   (router_routes_by_exact_id [("1", true)] (.obj [("x", .str "1")])).2.2.1 rfl⟩

/-- C2 counterexample: after a successful delivery the map entry is NOT
removed (remote.rs removes it only inside the `is_err()` branch), so a
duplicate frame with the already-consumed id is delivered into the same
slot again instead of being dropped. -/
theorem router_keeps_entry_after_delivery_cex :
    (routeParsed [("7", true)] (.obj [("id", .str "7")])).2 = [("7", true)]
  ∧ (routeParsed [("7", true)] (.obj [("id", .str "7")])).1
      = .toSlot "7" (.obj [("id", .str "7")])
  ∧ (routeParsed (routeParsed [("7", true)] (.obj [("id", .str "7")])).2
        (.obj [("id", .str "7")])).1
      = .toSlot "7" (.obj [("id", .str "7")]) :=
  ⟨rfl, rfl, rfl⟩

/-- C2 amended: when the frame id exists in the correlation map, the frame
is sent into that slot and the entry is removed exactly when that delivery
fails (receiver already dropped); after a successful delivery the entry
remains, so duplicate frames for the id are delivered again, not dropped. -/
theorem router_removes_entry_only_on_failed_delivery
    (channels : List (String × Bool)) (v : JValue) (id : String) (live : Bool)
    (hid : jsonStrField v "id" = some id) (hlook : chLookup channels id = some live) :
    routeParsed channels v =
      if live then (.toSlot id v, channels) else (.dropped, chRemove channels id) := by
  simp [routeParsed, hid, hlook]

/-- Witness for the amended C2 at concrete inputs: live receiver — frame
delivered, entry kept; dropped receiver — frame discarded, entry removed. -/
theorem router_removes_entry_only_on_failed_delivery_witness :
    routeParsed [("7", true)] (.obj [("id", .str "7")])
      = (.toSlot "7" (.obj [("id", .str "7")]), [("7", true)])
  ∧ routeParsed [("7", false)] (.obj [("id", .str "7")])
      = (.dropped, chRemove [("7", false)] "7") :=
  ⟨router_removes_entry_only_on_failed_delivery [("7", true)]
      (.obj [("id", .str "7")]) "7" true rfl rfl,
   router_removes_entry_only_on_failed_delivery [("7", false)]
      (.obj [("id", .str "7")]) "7" false rfl rfl⟩

/-! ### Decimal rendering — embedding of `u32::to_string` / `format!("{}")` -/

/-- Decimal digit character, as rendered by Display for unsigned integers. -/
def decDigitChar (d : Nat) : Char :=
  if d = 0 then '0' else if d = 1 then '1' else if d = 2 then '2'
  else if d = 3 then '3' else if d = 4 then '4' else if d = 5 then '5'
  else if d = 6 then '6' else if d = 7 then '7' else if d = 8 then '8' else '9'

/-- Little-endian decimal digits of `n` (empty for 0). -/
def decRevDigits (n : Nat) : List Char :=
  if h : n = 0 then [] else decDigitChar (n % 10) :: decRevDigits (n / 10)
decreasing_by exact Nat.div_lt_self (Nat.pos_of_ne_zero h) (by decide)

/-- The decimal rendering of `n`, as `u32::to_string` produces it. -/
def natToString (n : Nat) : String :=
  if n = 0 then "0" else ⟨(decRevDigits n).reverse⟩

theorem decDigitChar_ne_underscore (d : Nat) : decDigitChar d ≠ '_' := by
  unfold decDigitChar
  repeat' split
  all_goals decide

theorem decDigitChar_inj (a b : Nat) (ha : a < 10) (hb : b < 10) :
    decDigitChar a = decDigitChar b → a = b := by
  interval_cases a <;> interval_cases b <;> decide

theorem decRevDigits_zero : decRevDigits 0 = [] := by
  simp [decRevDigits]

theorem decRevDigits_of_ne (n : Nat) (h : n ≠ 0) :
    decRevDigits n = decDigitChar (n % 10) :: decRevDigits (n / 10) := by
  conv_lhs => rw [decRevDigits]
  simp [h]

theorem decRevDigits_eq_nil (n : Nat) : decRevDigits n = [] → n = 0 := by
  intro h
  by_contra hn
  rw [decRevDigits_of_ne n hn] at h
  exact List.cons_ne_nil _ _ h

theorem underscore_not_mem_decRevDigits (n : Nat) : '_' ∉ decRevDigits n := by
  induction n using Nat.strong_induction_on with
  | _ n ih =>
    by_cases h : n = 0
    · subst h
      simp [decRevDigits_zero]
    · rw [decRevDigits_of_ne n h]
      intro hmem
      rcases List.mem_cons.mp hmem with h1 | h1
      · exact decDigitChar_ne_underscore _ h1.symm
      · exact ih (n / 10) (Nat.div_lt_self (Nat.pos_of_ne_zero h) (by decide)) h1

theorem decRevDigits_inj : ∀ m n : Nat, decRevDigits m = decRevDigits n → m = n := by
  intro m
  induction m using Nat.strong_induction_on with
  | _ m ih =>
    intro n h
    by_cases hm : m = 0 <;> by_cases hn : n = 0
    · omega
    · rw [hm, decRevDigits_zero, decRevDigits_of_ne n hn] at h
      exact absurd h.symm (List.cons_ne_nil _ _)
    · rw [hn, decRevDigits_zero, decRevDigits_of_ne m hm] at h
      exact absurd h (List.cons_ne_nil _ _)
    · rw [decRevDigits_of_ne m hm, decRevDigits_of_ne n hn] at h
      obtain ⟨h1, h2⟩ := List.cons.inj h
      have e1 : m % 10 = n % 10 :=
        decDigitChar_inj _ _ (Nat.mod_lt _ (by decide)) (Nat.mod_lt _ (by decide)) h1
      have e2 : m / 10 = n / 10 :=
        ih (m / 10) (Nat.div_lt_self (Nat.pos_of_ne_zero hm) (by decide)) (n / 10) h2
      omega

theorem natToString_eq_zero_str (n : Nat) : natToString n = "0" → n = 0 := by
  intro h
  by_contra hn
  unfold natToString at h
  rw [if_neg hn] at h
  have hd : (decRevDigits n).reverse = ("0" : String).data := congrArg String.data h
  have hrev : decRevDigits n = ['0'] := by
    have := congrArg List.reverse hd
    simpa using this
  rw [decRevDigits_of_ne n hn] at hrev
  obtain ⟨h1, h2⟩ := List.cons.inj hrev
  have e1 : n % 10 = 0 :=
    decDigitChar_inj _ _ (Nat.mod_lt _ (by decide)) (by decide) h1
  have e2 : n / 10 = 0 := decRevDigits_eq_nil _ h2
  omega

theorem natToString_inj : ∀ m n : Nat, natToString m = natToString n → m = n := by
  intro m n h
  by_cases hm : m = 0 <;> by_cases hn : n = 0
  · omega
  · rw [hm] at h
    exact absurd (natToString_eq_zero_str n h.symm) hn
  · rw [hn] at h
    exact absurd (natToString_eq_zero_str m h) hm
  · unfold natToString at h
    rw [if_neg hm, if_neg hn] at h
    have hd := congrArg String.data h
    have : decRevDigits m = decRevDigits n := by
      have := congrArg List.reverse hd
      simpa using this
    exact decRevDigits_inj m n this

theorem underscore_not_mem_natToString (n : Nat) : '_' ∉ (natToString n).data := by
  unfold natToString
  by_cases h : n = 0
  · rw [if_pos h]
    decide
  · rw [if_neg h]
    intro hm
    exact underscore_not_mem_decRevDigits n (List.mem_reverse.mp hm)

/-! ### Correlation id allocation (remote.rs 177-181) -/

/-- `message_id` as computed by `send_command`: given the optional textual
prefix and the current value of the shared `command_count`, the id is
`format!("{}_{}", p, count)` when a prefix is given and
`count.to_string()` otherwise. -/
def messageId (pfx : Option String) (count : Nat) : String :=
  match pfx with
  | some p => p ++ "_" ++ natToString count
  | none => natToString count

theorem sep_split_inj : ∀ (xs ys u v : List Char), '_' ∉ u → '_' ∉ v →
    xs ++ '_' :: u = ys ++ '_' :: v → u = v := by
  intro xs
  induction xs with
  | nil =>
    intro ys u v hu hv h
    cases ys with
    | nil =>
      simpa using h
    | cons y ys =>
      simp only [List.nil_append, List.cons_append] at h
      obtain ⟨h1, h2⟩ := List.cons.inj h
      exact absurd (h2 ▸ List.mem_append_right ys (List.mem_cons_self '_' v)) hu
  | cons x xs ih =>
    intro ys u v hu hv h
    cases ys with
    | nil =>
      simp only [List.nil_append, List.cons_append] at h
      obtain ⟨h1, h2⟩ := List.cons.inj h
      exact absurd (h2 ▸ List.mem_append_right xs (List.mem_cons_self '_' u)) hv
    | cons y ys =>
      simp only [List.cons_append] at h
      obtain ⟨h1, h2⟩ := List.cons.inj h
      exact ih ys u v hu hv h2

/-- Two allocated correlation ids agree only if they were allocated at the
same counter value, whatever the two prefixes were: the rendered counter is
the digit block after the last underscore (prefixed case) or the whole id
(unprefixed case), and decimal renderings contain no underscore. -/
theorem messageId_count_inj : ∀ (p q : Option String) (a b : Nat),
    messageId p a = messageId q b → a = b := by
  intro p q a b h
  cases p with
  | none =>
    cases q with
    | none => exact natToString_inj a b h
    | some q' =>
      exfalso
      have hd := congrArg String.data h
      simp only [messageId, String.data_append, List.append_assoc,
        show ("_" : String).data = ['_'] from rfl, List.singleton_append] at hd
      exact underscore_not_mem_natToString a
        (hd ▸ List.mem_append_right q'.data (List.mem_cons_self '_' _))
  | some p' =>
    cases q with
    | none =>
      exfalso
      have hd := congrArg String.data h.symm
      simp only [messageId, String.data_append, List.append_assoc,
        show ("_" : String).data = ['_'] from rfl, List.singleton_append] at hd
      exact underscore_not_mem_natToString b
        (hd ▸ List.mem_append_right p'.data (List.mem_cons_self '_' _))
    | some q' =>
      have hd := congrArg String.data h
      simp only [messageId, String.data_append, List.append_assoc,
        show ("_" : String).data = ['_'] from rfl, List.singleton_append] at hd
      have hdata := sep_split_inj p'.data q'.data _ _
        (underscore_not_mem_natToString a) (underscore_not_mem_natToString b) hd
      exact natToString_inj a b (String.ext hdata)

/-! ### The session state (`LgtvRemote`, remote.rs 14-25)

`Session` carries the fields of the Rust struct plus the observable state
of the per-connection plumbing created by `connect()` (remote.rs 77-96):

* `ws_connected` — whether `ws_tx` is `Some` (a connection was opened);
* `writer_alive` — whether the writer task is still draining the command
  channel (it exits, dropping its receiver, when a websocket send fails
  after the stream closed; `tx.send` then returns `Err`);
* `outbound`    — the envelopes enqueued on the writer queue, in order.

The bounded capacity (32) of the queue only delays callers, it never
changes any routing or error outcome, so it is not represented. -/
structure Session where
  client_key : String
  mac_address : Option String
  ip : String
  hostname : Option String
  name : String
  command_count : Nat
  ssl : Bool
  handshake_done : Bool
  response_channels : List (String × Bool)
  ws_connected : Bool
  writer_alive : Bool
  outbound : List (String × String × String × Option JValue)

/-- The wire request `message_data` built by `send_command`
(remote.rs 183-191): id, type, uri and the optional payload.  The model
keeps the structured form; serialisation to text does not affect any
claimed property. -/
def mkEnvelope (id msgType uri : String) (payload : Option JValue) :
    String × String × String × Option JValue :=
  (id, msgType, uri, payload)

/-- `LgtvRemote::send_message` (remote.rs 150-161): with no `ws_tx` the
call fails with `ConnectionError("WebSocket not connected")`; with a
`ws_tx` whose writer task has exited the queue send fails and is mapped to
`ConnectionError("Failed to send message: channel closed")` (the Display
form of `mpsc::error::SendError`); otherwise the message is enqueued. -/
def send_message (s : Session) (e : String × String × String × Option JValue) :
    Except LgtvError Session :=
  if s.ws_connected then
    if s.writer_alive then .ok { s with outbound := s.outbound ++ [e] }
    else .error (.ConnectionError "Failed to send message: channel closed")
  else .error (.ConnectionError "WebSocket not connected")

/-- `2^32`, the modulus of the `u32` counter `command_count`. -/
def u32Mod : Nat := 4294967296

/-- `LgtvRemote::send_command` (remote.rs 163-202).  Returns the result of
the call — `.ok id` standing for the returned receiver, registered in the
correlation map under `id` — together with the state after the call.  The
guard is checked first; on failure nothing has been touched.  Otherwise
the id is allocated from the shared counter, the counter is incremented
(`u32` wrap-around), a fresh live one-slot channel is registered under the
id, and only then is the envelope handed to `send_message`; a
`send_message` failure is returned after those mutations (Rust `&mut self`
keeps them). -/
def send_command (s : Session) (msgType uri : String) (payload : Option JValue)
    (pfx : Option String) : Except LgtvError String × Session :=
  if s.handshake_done = false then
    (.error (.CommandError "Handshake not completed"), s)
  else
    let id := messageId pfx s.command_count
    let s1 := { s with command_count := (s.command_count + 1) % u32Mod }
    let s2 := { s1 with response_channels := chInsert s1.response_channels id true }
    match send_message s2 (mkEnvelope id msgType uri payload) with
    | .ok s3 => (.ok id, s3)
    | .error e => (.error e, s2)

/-- What stream closure does to the session state (remote.rs 89-128): the
reader task ends without touching any session field, and the writer task
exits once its next websocket send fails, which closes the command
channel.  No field — in particular not `handshake_done` and not the
correlation map — is reset by any task-exit code path. -/
def onStreamClose (s : Session) : Session :=
  { s with writer_alive := false }

/-- The correlation ids allocated by a run of `send_command` calls on a
Ready session whose counter currently holds `c` (one list entry per call,
holding that call's prefix argument): each call uses the current counter
in `messageId` and then increments it modulo `2^32`, exactly as
`send_command` does (see `send_command_allocates`). -/
def runIds : Nat → List (Option String) → List String
  | _, [] => []
  | c, p :: ps => messageId p c :: runIds ((c + 1) % u32Mod) ps

/-- Bridge between `runIds` and `send_command`: on a session past the
handshake, `send_command` allocates exactly `messageId pfx
s.command_count` — whether or not the enqueue then succeeds — and leaves
the counter at `(s.command_count + 1) % 2^32`. -/
theorem send_message_state (s : Session) (e : String × String × String × Option JValue)
    (s3 : Session) (h : send_message s e = .ok s3) :
    s3 = { s with outbound := s.outbound ++ [e] } := by
  unfold send_message at h
  split at h
  · split at h
    · exact (Except.ok.inj h).symm
    · cases h
  · cases h

theorem send_command_allocates (s : Session) (msgType uri : String)
    (payload : Option JValue) (pfx : Option String)
    (h : s.handshake_done = true) :
    ((send_command s msgType uri payload pfx).1 = .ok (messageId pfx s.command_count)
      ∨ (send_command s msgType uri payload pfx).1.isOk = false)
    ∧ (send_command s msgType uri payload pfx).2.command_count
        = (s.command_count + 1) % u32Mod
    ∧ chLookup (send_command s msgType uri payload pfx).2.response_channels
        (messageId pfx s.command_count) = some true := by
  unfold send_command
  rw [h]
  simp only [Bool.true_eq_false, if_false]
  refine ⟨?_, ?_, ?_⟩
  · split
    · exact Or.inl rfl
    · exact Or.inr rfl
  · split
    · rename_i s3 heq
      rw [send_message_state _ _ _ heq]
    · rfl
  · split
    · rename_i s3 heq
      rw [send_message_state _ _ _ heq]
      simp [chInsert, chLookup]
    · simp [chInsert, chLookup]

/-! ### C3 — fail fast before handshake -/

/-- C3: a `send_command` call made while the handshake flag is not set
fails at once with `CommandError("Handshake not completed")` and leaves
the session untouched: no correlation id is allocated (the counter is
unchanged), no map entry is registered, nothing is enqueued. -/
theorem send_command_before_handshake_fails_fast (s : Session)
    (msgType uri : String) (payload : Option JValue) (pfx : Option String)
    (h : s.handshake_done = false) :
    send_command s msgType uri payload pfx
      = (.error (.CommandError "Handshake not completed"), s) := by
  unfold send_command
  rw [if_pos h]

/-- Witness for C3 on a concrete freshly constructed session. -/
theorem send_command_before_handshake_fails_fast_witness :
    send_command ⟨"K", none, "192.168.0.2", none, "tv", 0, false, false, [], true, true, []⟩
        "request" "ssap://system/turnOff" none none
      = (.error (.CommandError "Handshake not completed"),
         ⟨"K", none, "192.168.0.2", none, "tv", 0, false, false, [], true, true, []⟩) :=
  send_command_before_handshake_fails_fast _ "request" "ssap://system/turnOff" none none rfl

/-! ### C4 — correlation id uniqueness -/

theorem natToString_mem_runIds_replicate :
    ∀ (n c k : Nat), c < u32Mod → k < n →
      natToString ((c + k) % u32Mod) ∈ runIds c (List.replicate n none) := by
  intro n
  induction n with
  | zero =>
    intro c k hc hk
    exact absurd hk (Nat.not_lt_zero k)
  | succ n ih =>
    intro c k hc hk
    rw [List.replicate_succ]
    show natToString ((c + k) % u32Mod)
      ∈ messageId none c :: runIds ((c + 1) % u32Mod) (List.replicate n none)
    cases k with
    | zero =>
      rw [show c + 0 = c from rfl, Nat.mod_eq_of_lt hc]
      exact List.mem_cons_self _ _
    | succ k =>
      apply List.mem_cons_of_mem
      have h1 : ((c + 1) % u32Mod + k) % u32Mod = (c + (k + 1)) % u32Mod := by
        rw [Nat.mod_add_mod]
        congr 1
        omega
      rw [← h1]
      exact ih ((c + 1) % u32Mod) k (Nat.mod_lt _ (by decide)) (by omega)

/-- C4 counterexample: `command_count` is a `u32`, so after `2^32` calls
the shared counter wraps (release-profile arithmetic) and the `2^32 + 1`-th
call reuses the very first id: a run of `2^32 + 1` unprefixed calls does
not produce pairwise-distinct correlation ids. -/
theorem correlation_ids_repeat_after_wrap_cex :
    ¬ List.Pairwise (fun a b => a ≠ b)
        (runIds 0 (List.replicate (u32Mod + 1) none)) := by
  intro hpw
  have hmem : natToString ((1 + (u32Mod - 1)) % u32Mod)
      ∈ runIds 1 (List.replicate u32Mod none) :=
    natToString_mem_runIds_replicate u32Mod 1 (u32Mod - 1) (by decide) (by decide)
  have he : (1 + (u32Mod - 1)) % u32Mod = 0 := by decide
  rw [he] at hmem
  have hrun : runIds 0 (List.replicate (u32Mod + 1) none)
      = natToString 0 :: runIds 1 (List.replicate u32Mod none) := by
    rw [List.replicate_succ]
    show messageId none 0 :: runIds ((0 + 1) % u32Mod) (List.replicate u32Mod none) = _
    rw [show (0 + 1) % u32Mod = 1 by decide]
    rfl
  rw [hrun] at hpw
  exact (List.pairwise_cons.mp hpw).1 _ hmem rfl

theorem runIds_mem_shape : ∀ (ps : List (Option String)) (c : Nat), c < u32Mod →
    ∀ x ∈ runIds c ps, ∃ q i, i < ps.length ∧ x = messageId q ((c + i) % u32Mod) := by
  intro ps
  induction ps with
  | nil =>
    intro c hc x hx
    simp [runIds] at hx
  | cons p ps ih =>
    intro c hc x hx
    rw [show runIds c (p :: ps)
        = messageId p c :: runIds ((c + 1) % u32Mod) ps from rfl] at hx
    rcases List.mem_cons.mp hx with h1 | h1
    · exact ⟨p, 0, Nat.succ_pos _, by rw [Nat.add_zero, Nat.mod_eq_of_lt hc]; exact h1⟩
    · obtain ⟨q, i, hi, hxe⟩ := ih ((c + 1) % u32Mod) (Nat.mod_lt _ (by decide)) x h1
      refine ⟨q, i + 1, by simp only [List.length_cons]; omega, ?_⟩
      rw [hxe]
      congr 1
      rw [Nat.mod_add_mod]
      congr 1
      omega

theorem runIds_pairwise : ∀ (ps : List (Option String)) (c : Nat),
    c + ps.length ≤ u32Mod → List.Pairwise (fun a b => a ≠ b) (runIds c ps) := by
  intro ps
  induction ps with
  | nil =>
    intro c h
    exact List.Pairwise.nil
  | cons p ps ih =>
    intro c h
    simp only [List.length_cons] at h
    have hc : c < u32Mod := by omega
    rw [show runIds c (p :: ps)
        = messageId p c :: runIds ((c + 1) % u32Mod) ps from rfl]
    by_cases hps : ps = []
    · subst hps
      simp [runIds]
    · have hlen : 0 < ps.length := List.length_pos.mpr hps
      have hmod : (c + 1) % u32Mod = c + 1 := Nat.mod_eq_of_lt (by omega)
      constructor
      · intro b hb
        obtain ⟨q, i, hi, hbe⟩ :=
          runIds_mem_shape ps ((c + 1) % u32Mod) (Nat.mod_lt _ (by decide)) b hb
        rw [hmod] at hbe
        rw [Nat.mod_eq_of_lt (by omega : c + 1 + i < u32Mod)] at hbe
        intro hcontra
        rw [hbe] at hcontra
        have := messageId_count_inj p q c (c + 1 + i) hcontra
        omega
      · rw [hmod]
        exact ih (c + 1) (by omega)

/-- C4 amended: the correlation ids allocated by any run of at most
`2^32` `send_command` calls on one fresh session are pairwise distinct —
including across calls that use different prefixes or none, because the
single shared counter is incremented on every call and its decimal
rendering is recoverable from the id; beyond `2^32` calls the `u32`
counter wraps and ids repeat (see the counterexample). -/
theorem correlation_ids_distinct_within_wrap (ps : List (Option String))
    (h : ps.length ≤ u32Mod) :
    List.Pairwise (fun a b => a ≠ b) (runIds 0 ps) :=
  runIds_pairwise ps 0 (by omega)

/-- Witness for the amended C4: a concrete mixed-prefix run. -/
theorem correlation_ids_distinct_within_wrap_witness :
    List.Pairwise (fun a b => a ≠ b)
      (runIds 0 [some "power", none, some "power", none]) :=
  correlation_ids_distinct_within_wrap _ (by decide)

/-! ### C6 — behaviour after stream closure -/

/-- C6 counterexample: on a Ready session whose transport stream has
closed (both background tasks wound down), no state is reset —
`handshake_done` is still `true` — and the next `send_command` call,
although it does fail, first registers a correlation-map entry under the
freshly allocated id "0" that can never be answered. -/
theorem stream_close_no_reset_cex :
    (onStreamClose ⟨"K", none, "192.168.0.2", none, "tv", 0, false, true,
        [], true, true, []⟩).handshake_done = true
  ∧ (send_command (onStreamClose ⟨"K", none, "192.168.0.2", none, "tv", 0, false, true,
        [], true, true, []⟩) "request" "ssap://system/turnOff" none none).1
      = .error (.ConnectionError "Failed to send message: channel closed")
  ∧ (send_command (onStreamClose ⟨"K", none, "192.168.0.2", none, "tv", 0, false, true,
        [], true, true, []⟩) "request" "ssap://system/turnOff" none none).2.response_channels
      = [("0", true)] :=
  ⟨rfl, rfl, rfl⟩

/-- C6 amended: stream closure resets nothing; once the writer task has
exited, a subsequent `send_command` call on the still-Ready session returns
`ConnectionError("Failed to send message: channel closed")` synchronously
(it does not suspend), but only after allocating a correlation id and
registering a map entry for it that is never answered. -/
theorem send_command_after_writer_exit (s : Session) (msgType uri : String)
    (payload : Option JValue) (pfx : Option String)
    (hh : s.handshake_done = true) (hw : s.ws_connected = true) :
    (send_command (onStreamClose s) msgType uri payload pfx).1
        = .error (.ConnectionError "Failed to send message: channel closed")
    ∧ (onStreamClose s).handshake_done = true
    ∧ (send_command (onStreamClose s) msgType uri payload pfx).2.response_channels
        = chInsert s.response_channels (messageId pfx s.command_count) true := by
  unfold onStreamClose send_command send_message
  simp [hh, hw]

/-- Witness for the amended C6 at a concrete Ready session. -/
theorem send_command_after_writer_exit_witness :
    (send_command (onStreamClose ⟨"K", none, "10.0.0.9", none, "tv", 3, false, true,
        [], true, true, []⟩) "request" "ssap://audio/getVolume" none (some "volume")).1
      = .error (.ConnectionError "Failed to send message: channel closed") :=
  (send_command_after_writer_exit _ "request" "ssap://audio/getVolume" none
      (some "volume") rfl rfl).1

/-! ### C9 — `LgtvRemote::new` (remote.rs 27-68) -/

/-- The struct value built on the success path of `LgtvRemote::new`
(remote.rs 56-67): credentials as supplied, counter at 0, handshake not
done, empty correlation map, no websocket plumbing yet. -/
def newSession (client_key : String) (mac : Option String) (ip_addr : String)
    (hostname : Option String) (name : String) (ssl : Bool) : Session :=
  { client_key := client_key, mac_address := mac, ip := ip_addr,
    hostname := hostname, name := name, command_count := 0, ssl := ssl,
    handshake_done := false, response_channels := [],
    ws_connected := false, writer_alive := false, outbound := [] }

/-- `LgtvRemote::new` (remote.rs 27-68).  `resolve host` stands for
`(host, 0).to_socket_addrs()?.next()` — the first resolved address of the
hostname, if any; an `Err` of the resolver itself propagates as an
`IoError` and is outside this model, which only distinguishes the
resolved-address from the no-address outcome. -/
def LgtvRemote_new (name : String) (ip : Option String) (mac : Option String)
    (key : Option String) (hostname : Option String) (ssl : Bool)
    (resolve : String → Option String) : Except LgtvError Session :=
  match key with
  | none => .error (.AuthError "Client key is required")
  | some client_key =>
    match ip with
    | some i => .ok (newSession client_key mac i hostname name ssl)
    | none =>
      match hostname with
      | some host =>
        match resolve host with
        | some a => .ok (newSession client_key mac a hostname name ssl)
        | none => .error (.ConnectionError ("Could not resolve hostname: " ++ host))
      | none => .error (.ConnectionError "Either IP or hostname is required")

/-- C9: construction never succeeds without a client key — `key == None`
yields `AuthError("Client key is required")` whatever else is supplied; a
key with neither ip nor hostname yields a `ConnectionError`; and on the
ip-supplied success path the stored fields equal the supplied arguments
(key, mac, ip, hostname, name), with the counter at 0 and the handshake
not done. -/
theorem new_requires_key_and_target (name : String) (mac : Option String)
    (ip hostname : Option String) (ssl : Bool) (resolve : String → Option String)
    (k i : String) :
    LgtvRemote_new name ip mac none hostname ssl resolve
        = .error (.AuthError "Client key is required")
  ∧ LgtvRemote_new name none mac (some k) none ssl resolve
        = .error (.ConnectionError "Either IP or hostname is required")
  ∧ LgtvRemote_new name (some i) mac (some k) hostname ssl resolve
        = .ok (newSession k mac i hostname name ssl) := by
  cases ip <;> exact ⟨rfl, rfl, rfl⟩

/-! ### C5 — stream closure during the handshake wait -/

/-- Does an envelope carry `payload.client-key` (presence only)?  This is
the test of the wait loop in `LgtvRemote::connect` (remote.rs 136-145). -/
def hasClientKeyField (v : JValue) : Bool :=
  ((jsonGet v "payload").bind (fun p => jsonGet p "client-key")).isSome

/-- The wait loop of `LgtvRemote::connect` (remote.rs 136-145) over the
unsolicited frames delivered before the channel closed: `true` iff some
frame carried `payload.client-key`, in which case the loop breaks with
`handshake_done` set.  When the list ends (stream closed, sender dropped)
the loop just ends with the flag still `false`. -/
def remoteAwaitHandshake : List JValue → Bool
  | [] => false
  | r :: rest => if hasClientKeyField r then true else remoteAwaitHandshake rest

/-- Outcome of `LgtvRemote::connect` from the wait loop on (remote.rs
136-147): whether or not a key frame ever arrived, execution falls
through to `Ok(())`; the pair also carries the final `handshake_done`. -/
def remoteConnectResult (inbound : List JValue) : Except LgtvError Unit × Bool :=
  (.ok (), remoteAwaitHandshake inbound)

/-- `payload.client-key` as a string, the value `LgtvAuth::connect`
extracts (auth.rs 76-83). -/
def clientKeyStr (v : JValue) : Option String :=
  (jsonGet v "payload").bind (fun p => (jsonGet p "client-key").bind jAsStr)

/-- The wait loop of `LgtvAuth::connect` (auth.rs 75-85): the first
string-valued `payload.client-key` among the frames received before the
stream closed, if any. -/
def authAwaitKey : List JValue → Option String
  | [] => none
  | r :: rest =>
    match clientKeyStr r with
    | some k => some k
    | none => authAwaitKey rest

/-- Outcome of `LgtvAuth::connect` from the wait loop on (auth.rs 75-91):
with no key received it fails with `AuthError("Pairing failed")`. -/
def authConnectResult (inbound : List JValue) : Except LgtvError String :=
  match authAwaitKey inbound with
  | some k => .ok k
  | none => .error (.AuthError "Pairing failed")

/-- C5 counterexample: when the stream closes before any key-bearing
envelope (empty inbound list), the already-credentialed path
`LgtvRemote::connect` returns success — `Ok(())` with `handshake_done`
still `false` — rather than any `AuthError`; and the pairing path's
error message is "Pairing failed", not "pairing failed". -/
theorem remote_connect_ok_on_close_cex :
    remoteConnectResult [] = (.ok (), false)
  ∧ authConnectResult [] = .error (.AuthError "Pairing failed") :=
  ⟨rfl, rfl⟩

theorem clientKeyStr_none_of (v : JValue) (h : hasClientKeyField v = false) :
    clientKeyStr v = none := by
  unfold hasClientKeyField at h
  cases hp : jsonGet v "payload" with
  | none =>
    unfold clientKeyStr
    rw [hp]
    rfl
  | some p =>
    rw [hp] at h
    have h' : (jsonGet p "client-key").isSome = false := h
    unfold clientKeyStr
    rw [hp]
    show (jsonGet p "client-key").bind jAsStr = none
    cases hk : jsonGet p "client-key" with
    | none => rfl
    | some k =>
      rw [hk] at h'
      simp at h'

theorem authAwaitKey_eq_none (l : List JValue)
    (h : ∀ v ∈ l, hasClientKeyField v = false) : authAwaitKey l = none := by
  induction l with
  | nil => rfl
  | cons r rest ih =>
    unfold authAwaitKey
    rw [clientKeyStr_none_of r (h r (List.mem_cons_self r rest))]
    exact ih (fun v hv => h v (List.mem_cons_of_mem r hv))

theorem remoteAwaitHandshake_eq_false (l : List JValue)
    (h : ∀ v ∈ l, hasClientKeyField v = false) : remoteAwaitHandshake l = false := by
  induction l with
  | nil => rfl
  | cons r rest ih =>
    unfold remoteAwaitHandshake
    rw [h r (List.mem_cons_self r rest)]
    simpa using ih (fun v hv => h v (List.mem_cons_of_mem r hv))

/-- C5 amended: if the stream closes before any envelope carrying
`payload.client-key` arrives, the pairing path (`LgtvAuth::connect`) fails
with `AuthError("Pairing failed")`, but the already-credentialed path
(`LgtvRemote::connect`) instead returns `Ok(())` with `handshake_done`
still unset — it reports success even though the handshake never
completed. -/
theorem pairing_close_behavior (inbound : List JValue)
    (h : ∀ v ∈ inbound, hasClientKeyField v = false) :
    authConnectResult inbound = .error (.AuthError "Pairing failed")
  ∧ remoteConnectResult inbound = (.ok (), false) := by
  constructor
  · unfold authConnectResult
    rw [authAwaitKey_eq_none inbound h]
  · unfold remoteConnectResult
    rw [remoteAwaitHandshake_eq_false inbound h]

/-- Witness for the amended C5: a closed stream that only ever delivered
one keyless envelope. -/
theorem pairing_close_behavior_witness :
    authConnectResult [.obj [("type", .str "response")]]
        = .error (.AuthError "Pairing failed")
  ∧ remoteConnectResult [.obj [("type", .str "response")]] = (.ok (), false) :=
  pairing_close_behavior [.obj [("type", .str "response")]] (by
    intro v hv
    simp only [List.mem_singleton] at hv
    subst hv
    rfl)

/-! ### C7 — Wake-on-LAN MAC parsing (remote.rs 225-255) -/

/-- Rust `str::split([':', '-'])` over the character list: fields between
delimiter occurrences, empty fields kept, always one field more than
there are delimiters. -/
def splitMacAux : List Char → List Char → List (List Char)
  | [], acc => [acc]
  | c :: rest, acc =>
    if c = ':' ∨ c = '-' then acc :: splitMacAux rest []
    else splitMacAux rest (acc ++ [c])

/-- `mac_str.split([':', '-']).collect()` (remote.rs 242). -/
def splitMac (s : List Char) : List (List Char) := splitMacAux s []

/-- `char::to_digit(16)`. -/
def hexDigitVal (c : Char) : Option Nat :=
  if '0' ≤ c ∧ c ≤ '9' then some (c.toNat - '0'.toNat)
  else if 'a' ≤ c ∧ c ≤ 'f' then some (c.toNat - 'a'.toNat + 10)
  else if 'A' ≤ c ∧ c ≤ 'F' then some (c.toNat - 'A'.toNat + 10)
  else none

/-- The digit loop of `u8::from_str_radix`: left to right, each step a
checked multiply-by-16 and add kept inside the `u8` range. -/
def parseHexDigits : List Char → Nat → Option Nat
  | [], acc => some acc
  | c :: rest, acc =>
    match hexDigitVal c with
    | none => none
    | some d => if acc * 16 + d < 256 then parseHexDigits rest (acc * 16 + d) else none

/-- `u8::from_str_radix(part, 16)` (remote.rs 252): an optional leading
`+` (a bare sign alone is rejected; a `-` is always rejected for an
unsigned target), then one or more hex digits, overflow-checked. -/
def from_str_radix16_u8 (s : List Char) : Option Nat :=
  match s with
  | [] => none
  | c :: rest =>
    if c = '+' then
      match rest with
      | [] => none
      | _ => parseHexDigits rest 0
    else if c = '-' then none
    else parseHexDigits (c :: rest) 0

/-- The per-part loop of `parse_mac_address` (remote.rs 249-253): octets
in input order, first failing part reported. -/
def parseParts : List (List Char) → Except String (List Nat)
  | [] => .ok []
  | p :: rest =>
    match from_str_radix16_u8 p with
    | none => .error ("Invalid hex value: " ++ String.mk p)
    | some b =>
      match parseParts rest with
      | .ok bs => .ok (b :: bs)
      | .error e => .error e

/-- `LgtvRemote::parse_mac_address` (remote.rs 241-255). -/
def parse_mac_address (s : List Char) : Except String (List Nat) :=
  if (splitMac s).length ≠ 6 then
    .error ("MAC address should have 6 parts, found " ++ natToString (splitMac s).length)
  else parseParts (splitMac s)

/-- `LgtvRemote::on` (remote.rs 225-239) up to the network boundary:
`.ok bytes` stands for the octets handed to `MagicPacket::new`; every
`.error` outcome is returned before any socket is touched. -/
def LgtvRemote_on (mac_address : Option String) : Except LgtvError (List Nat) :=
  match mac_address with
  | none => .error (.CommandError "MAC address is required for power on")
  | some m =>
    match parse_mac_address m.data with
    | .error e => .error (.CommandError ("Invalid MAC address format: " ++ e))
    | .ok bytes => .ok bytes

/-- The acceptance shape asserted by the specification for claim C7,
stated from the words of the spec (for comparison against the code):
exactly 6 parts, each consisting of 1 or 2 hex digits. -/
def specMacShape (s : List Char) : Prop :=
  (splitMac s).length = 6 ∧
    ∀ p ∈ splitMac s,
      (1 ≤ p.length ∧ p.length ≤ 2) ∧ ∀ c ∈ p, (hexDigitVal c).isSome = true

/-- C7 counterexample: `"00:00:00:00:00:000"` has a 3-digit final part,
outside the spec's 1-2-hex-digit shape, yet `u8::from_str_radix("000",
16)` accepts it (leading zeros), so parsing succeeds. -/
theorem parse_mac_three_digit_part_cex :
    parse_mac_address ("00:00:00:00:00:000" : String).data = .ok [0, 0, 0, 0, 0, 0]
  ∧ ¬ specMacShape ("00:00:00:00:00:000" : String).data := by
  constructor
  · rfl
  · intro h
    have h2 := (h.2 ['0', '0', '0'] (by decide)).1.2
    simp at h2

theorem parseParts_isOk (ps : List (List Char)) :
    (parseParts ps).isOk = true ↔ ∀ p ∈ ps, from_str_radix16_u8 p ≠ none := by
  induction ps with
  | nil =>
    constructor
    · intro _ p hp
      exact absurd hp (List.not_mem_nil p)
    · intro _
      rfl
  | cons p rest ih =>
    constructor
    · intro h q hq
      unfold parseParts at h
      cases hp : from_str_radix16_u8 p with
      | none =>
        rw [hp] at h
        simp [Except.isOk, Except.toBool] at h
      | some b =>
        rw [hp] at h
        cases hr : parseParts rest with
        | error e =>
          rw [hr] at h
          simp [Except.isOk, Except.toBool] at h
        | ok bs =>
          rcases List.mem_cons.mp hq with h1 | h1
          · subst h1
            rw [hp]
            simp
          · exact ih.mp (by rw [hr]; rfl) q h1
    · intro h
      unfold parseParts
      cases hp : from_str_radix16_u8 p with
      | none => exact absurd hp (h p (List.mem_cons_self p rest))
      | some b =>
        cases hr : parseParts rest with
        | ok bs => rfl
        | error e =>
          exfalso
          have hok : (parseParts rest).isOk = true :=
            ih.mpr (fun q hq => h q (List.mem_cons_of_mem p hq))
          rw [hr] at hok
          simp [Except.isOk, Except.toBool] at hok

/-- C7 amended: parsing succeeds exactly when the input splits on `:`/`-`
into exactly 6 parts each accepted by `u8::from_str_radix(_, 16)` — one
or more hex digits with an optional leading `+`, value at most 255, so
leading zeros can make a part longer than 2 digits; any other shape
(5 parts, a non-hex part such as "GG", the empty string, or a missing
address) makes `on()` return an error strictly before the network
boundary, and on success `on()` forwards exactly the parsed octets. -/
theorem parse_mac_characterization (s : String) :
    ((parse_mac_address s.data).isOk = true ↔
      (splitMac s.data).length = 6 ∧ ∀ p ∈ splitMac s.data, from_str_radix16_u8 p ≠ none)
  ∧ LgtvRemote_on none = .error (.CommandError "MAC address is required for power on")
  ∧ (∀ msg, parse_mac_address s.data = .error msg →
      LgtvRemote_on (some s) = .error (.CommandError ("Invalid MAC address format: " ++ msg)))
  ∧ (∀ bytes, parse_mac_address s.data = .ok bytes → LgtvRemote_on (some s) = .ok bytes) := by
  refine ⟨?_, rfl, ?_, ?_⟩
  · unfold parse_mac_address
    by_cases hl : (splitMac s.data).length = 6
    · rw [if_neg (by simp [hl])]
      rw [parseParts_isOk]
      constructor
      · intro h
        exact ⟨hl, h⟩
      · intro h
        exact h.2
    · rw [if_pos hl]
      constructor
      · intro h
        simp [Except.isOk, Except.toBool] at h
      · intro h
        exact absurd h.1 hl
  · intro msg hmsg
    simp only [LgtvRemote_on]
    rw [hmsg]
  · intro bytes hb
    simp only [LgtvRemote_on]
    rw [hb]

/-- Witness for the amended C7: a well-formed address parses; a non-hex
part fails with the format error before the network boundary; a
hyphen-separated address yields its octets. -/
theorem parse_mac_characterization_witness :
    (parse_mac_address ("AA:BB:CC:DD:EE:FF" : String).data).isOk = true
  ∧ LgtvRemote_on (some "GG:00:00:00:00:00")
      = .error (.CommandError ("Invalid MAC address format: " ++ "Invalid hex value: GG"))
  ∧ LgtvRemote_on (some "AA-BB-CC-DD-EE-FF") = .ok [170, 187, 204, 221, 238, 255] :=
  ⟨(parse_mac_characterization "AA:BB:CC:DD:EE:FF").1.mpr (by decide),
   (parse_mac_characterization "GG:00:00:00:00:00").2.2.1 "Invalid hex value: GG" (by rfl),
   (parse_mac_characterization "AA-BB-CC-DD-EE-FF").2.2.2 [170, 187, 204, 221, 238, 255] (by rfl)⟩

/-! ### C8 / C10 — discovery (`scan_for_tvs`, scan.rs 16-85) -/

/-- `TvDevice` (scan.rs 9-14). -/
structure TvDevice where
  uuid : Option String
  tv_name : Option String
  address : String
deriving DecidableEq

/-- The de-duplication loop of `scan_for_tvs` (scan.rs 73-84): walk the
collected devices in order with a set of already-seen addresses, keeping a
device exactly when its address has not been seen yet. -/
def dedupGo (seen : List String) : List TvDevice → List TvDevice
  | [] => []
  | d :: rest =>
    if d.address ∈ seen then dedupGo seen rest
    else d :: dedupGo (d.address :: seen) rest

/-- De-duplication by source address with an initially empty seen-set. -/
def dedupByAddress (l : List TvDevice) : List TvDevice := dedupGo [] l

theorem dedupGo_mem (seen : List String) (l : List TvDevice) :
    ∀ e ∈ dedupGo seen l, e ∈ l ∧ e.address ∉ seen := by
  induction l generalizing seen with
  | nil =>
    intro e he
    simp [dedupGo] at he
  | cons d rest ih =>
    intro e he
    unfold dedupGo at he
    by_cases hd : d.address ∈ seen
    · rw [if_pos hd] at he
      obtain ⟨h1, h2⟩ := ih seen e he
      exact ⟨List.mem_cons_of_mem d h1, h2⟩
    · rw [if_neg hd] at he
      rcases List.mem_cons.mp he with h1 | h1
      · subst h1
        exact ⟨List.mem_cons_self _ _, hd⟩
      · obtain ⟨h1', h2'⟩ := ih (d.address :: seen) e h1
        exact ⟨List.mem_cons_of_mem d h1', fun hc => h2' (List.mem_cons_of_mem _ hc)⟩

theorem dedupGo_pairwise (seen : List String) (l : List TvDevice) :
    List.Pairwise (fun a b => a.address ≠ b.address) (dedupGo seen l) := by
  induction l generalizing seen with
  | nil => exact List.Pairwise.nil
  | cons d rest ih =>
    unfold dedupGo
    by_cases hd : d.address ∈ seen
    · rw [if_pos hd]
      exact ih seen
    · rw [if_neg hd]
      constructor
      · intro e he hc
        exact (dedupGo_mem _ _ e he).2 (by rw [← hc]; exact List.mem_cons_self _ _)
      · exact ih _

theorem dedupGo_coverage (l : List TvDevice) :
    ∀ (seen : List String) (d : TvDevice), d ∈ l → d.address ∉ seen →
      ∃ e ∈ dedupGo seen l, e.address = d.address := by
  induction l with
  | nil =>
    intro seen d hd
    exact absurd hd (List.not_mem_nil d)
  | cons d0 rest ih =>
    intro seen d hd hseen
    unfold dedupGo
    by_cases h0 : d0.address ∈ seen
    · rw [if_pos h0]
      rcases List.mem_cons.mp hd with h1 | h1
      · subst h1
        exact absurd h0 hseen
      · exact ih seen d h1 hseen
    · rw [if_neg h0]
      by_cases heq : d.address = d0.address
      · exact ⟨d0, List.mem_cons_self _ _, heq.symm⟩
      · rcases List.mem_cons.mp hd with h1 | h1
        · subst h1
          exact absurd rfl heq
        · obtain ⟨e, he, hea⟩ := ih (d0.address :: seen) d h1 (by
            intro hc
            rcases List.mem_cons.mp hc with h2 | h2
            · exact heq h2
            · exact hseen h2)
          exact ⟨e, List.mem_cons_of_mem d0 he, hea⟩

theorem dedupGo_first_seen (l : List TvDevice) :
    ∀ (seen : List String) (e : TvDevice), e ∈ dedupGo seen l →
      l.find? (fun d => d.address == e.address) = some e := by
  induction l with
  | nil =>
    intro seen e he
    simp [dedupGo] at he
  | cons d0 rest ih =>
    intro seen e he
    unfold dedupGo at he
    by_cases h0 : d0.address ∈ seen
    · rw [if_pos h0] at he
      have hne : e.address ≠ d0.address := by
        intro hc
        exact (dedupGo_mem seen rest e he).2 (hc ▸ h0)
      rw [List.find?_cons_of_neg _ (by simp only [beq_iff_eq]; exact fun hc => hne hc.symm)]
      exact ih seen e he
    · rw [if_neg h0] at he
      rcases List.mem_cons.mp he with h1 | h1
      · subst h1
        rw [List.find?_cons_of_pos _ (by simp)]
      · have hne : e.address ≠ d0.address := by
          intro hc
          exact (dedupGo_mem _ _ e h1).2 (by rw [hc]; exact List.mem_cons_self _ _)
        rw [List.find?_cons_of_neg _ (by simp only [beq_iff_eq]; exact fun hc => hne hc.symm)]
        exact ih (d0.address :: seen) e h1

theorem dedupGo_sublist (l : List TvDevice) :
    ∀ seen, (dedupGo seen l).Sublist l := by
  induction l with
  | nil =>
    intro seen
    simp [dedupGo]
  | cons d rest ih =>
    intro seen
    unfold dedupGo
    by_cases hd : d.address ∈ seen
    · rw [if_pos hd]
      exact (ih seen).cons d
    · rw [if_neg hd]
      exact (ih _).cons₂ d

/-- C8: de-duplication keeps, per distinct source address, exactly one
entry; every collected address is represented; the kept entry is the
first-seen one for its address (so its uuid and name are retained); and
the output is a sublist of the input, so output order is first-seen
order. -/
theorem dedup_by_address_first_seen (l : List TvDevice) :
    List.Pairwise (fun a b => a.address ≠ b.address) (dedupByAddress l)
  ∧ (∀ d ∈ l, ∃ e ∈ dedupByAddress l, e.address = d.address)
  ∧ (∀ e ∈ dedupByAddress l, l.find? (fun d => d.address == e.address) = some e)
  ∧ (dedupByAddress l).Sublist l := by
  refine ⟨dedupGo_pairwise [] l, ?_, ?_, dedupGo_sublist l []⟩
  · intro d hd
    exact dedupGo_coverage l [] d hd (List.not_mem_nil _)
  · intro e he
    exact dedupGo_first_seen l [] e he

/-- Witness for C8 on a concrete reply list: two replies from the same
address collapse to the first-seen entry, whose uuid and name survive. -/
theorem dedup_by_address_first_seen_witness :
    dedupByAddress [⟨some "u1", some "n1", "10.0.0.5"⟩, ⟨some "u2", some "n2", "10.0.0.5"⟩,
        ⟨none, none, "10.0.0.6"⟩]
      = [⟨some "u1", some "n1", "10.0.0.5"⟩, ⟨none, none, "10.0.0.6"⟩]
  ∧ [⟨some "u1", some "n1", "10.0.0.5"⟩, (⟨some "u2", some "n2", "10.0.0.5"⟩ : TvDevice),
        ⟨none, none, "10.0.0.6"⟩].find?
        (fun d => d.address == (⟨some "u1", some "n1", "10.0.0.5"⟩ : TvDevice).address)
      = some ⟨some "u1", some "n1", "10.0.0.5"⟩ :=
  ⟨rfl,
   (dedup_by_address_first_seen [⟨some "u1", some "n1", "10.0.0.5"⟩,
      ⟨some "u2", some "n2", "10.0.0.5"⟩, ⟨none, none, "10.0.0.6"⟩]).2.2.1
     ⟨some "u1", some "n1", "10.0.0.5"⟩ (by decide)⟩

/-- One probe round of `scan_for_tvs` (scan.rs 35-71), as observed at the
socket: the `send_to` can fail (aborting the whole scan with the IO
error), and the single `recv_from` of the round either yields one
datagram with its source address or fails (timeout/error, skipped). -/
inductive RoundEvent where
  | sendFail
  | recvOk (response : String) (addr : String)
  | recvErr

/-- `response.contains("LG")` (scan.rs 43) on the character list. -/
def hasLG : List Char → Bool
  | 'L' :: 'G' :: _ => true
  | _ :: rest => hasLG rest
  | [] => false

/-- The collection loop of `scan_for_tvs` (scan.rs 35-71), one entry of
`rounds` per loop iteration: a failed `send_to` aborts the function with
the IO error (`.error ()` — the payload is irrelevant here); an accepted
datagram (vendor marker "LG" present) contributes exactly one `TvDevice`;
anything else contributes nothing.  The regex captures for `uuid` and
`tv_name` are the parameters `uuidOf`/`nameOf`; the regex engine itself is
not embedded and no claim depends on the captured text. -/
def collectScan (uuidOf nameOf : String → Option String) :
    List RoundEvent → Except Unit (List TvDevice)
  | [] => .ok []
  | .sendFail :: _ => .error ()
  | .recvOk resp addr :: rest =>
    match collectScan uuidOf nameOf rest with
    | .error e => .error e
    | .ok ds =>
      .ok ((if hasLG resp.data then [⟨uuidOf resp, nameOf resp, addr⟩] else []) ++ ds)
  | .recvErr :: rest => collectScan uuidOf nameOf rest

/-- `scan_for_tvs` (scan.rs 16-85) over the observed round events: the
collected devices de-duplicated by address (the loop always runs
`attempts = 4` rounds; a caller of this model passes a 4-entry list). -/
def scan_for_tvs (uuidOf nameOf : String → Option String)
    (rounds : List RoundEvent) : Except Unit (List TvDevice) :=
  match collectScan uuidOf nameOf rounds with
  | .error e => .error e
  | .ok ds => .ok (dedupByAddress ds)

theorem collectScan_length (uuidOf nameOf : String → Option String) :
    ∀ (rounds : List RoundEvent) (ds : List TvDevice),
      collectScan uuidOf nameOf rounds = .ok ds → ds.length ≤ rounds.length := by
  intro rounds
  induction rounds with
  | nil =>
    intro ds h
    simp [collectScan] at h
    simp [← h]
  | cons r rest ih =>
    intro ds h
    cases r with
    | sendFail => simp [collectScan] at h
    | recvErr =>
      have := ih ds (by simpa [collectScan] using h)
      simp only [List.length_cons]
      omega
    | recvOk resp addr =>
      unfold collectScan at h
      cases hr : collectScan uuidOf nameOf rest with
      | error e =>
        rw [hr] at h
        simp at h
      | ok ds' =>
        rw [hr] at h
        injection h with h
        have hlen := ih ds' hr
        have hd : ds.length ≤ ds'.length + 1 := by
          rw [← h]
          by_cases hc : hasLG resp.data <;> simp [hc]
        simp only [List.length_cons]
        omega

/-- C10: with the loop's 4 probe rounds, each reading at most one
datagram, a successful scan returns at most 4 devices. -/
theorem scan_results_at_most_four (uuidOf nameOf : String → Option String)
    (rounds : List RoundEvent) (ds : List TvDevice)
    (hlen : rounds.length = 4)
    (h : scan_for_tvs uuidOf nameOf rounds = .ok ds) :
    ds.length ≤ 4 := by
  unfold scan_for_tvs at h
  cases hr : collectScan uuidOf nameOf rounds with
  | error e =>
    rw [hr] at h
    simp at h
  | ok collected =>
    rw [hr] at h
    injection h with h
    have h1 : collected.length ≤ 4 := hlen ▸ collectScan_length uuidOf nameOf rounds collected hr
    have h2 : (dedupByAddress collected).length ≤ collected.length :=
      (dedupGo_sublist collected []).length_le
    rw [← h]
    omega

/-- Witness for C10: a 4-round scan with two accepted duplicate replies
and two receive timeouts yields one device — within the bound. -/
theorem scan_results_at_most_four_witness :
    ([⟨none, none, "10.0.0.7"⟩] : List TvDevice).length ≤ 4 :=
  scan_results_at_most_four (fun _ => none) (fun _ => none)
    [.recvOk "HTTP/1.1 200 OK from LG device" "10.0.0.7", .recvErr,
     .recvOk "HTTP/1.1 200 OK from LG device" "10.0.0.7", .recvErr]
    [⟨none, none, "10.0.0.7"⟩] rfl (by rfl)
